import Mathlib

/-!
Shallow embedding of the ifacemaker type model, parser and renderer
(internal/generator/type.go), together with proofs of the specified
properties.

Modelling conventions:
- The Go struct Type is a flat record whose pointer fields may be nil;
  it is embedded as the inductive Ty whose nilable pointer fields are
  Option Ty.  Go field names are kept.
- Fallible evaluation (a Go panic, in particular a nil-pointer
  dereference inside String, or the explicit panic in ParseType's
  default branch) is embedded as Option: none means the Go code aborts.
- go/ast nodes relevant to ParseType are embedded as the inductive
  AstNode; the constructor AstNode.unsupported stands for every other
  go/ast node shape, all of which are dispatched to ParseType's default
  panic branch.
- ast.ChanDir is an integer bit set in Go: ast.SEND = 1, ast.RECV = 2,
  and a bidirectional channel written chan T carries SEND|RECV = 3.
  It is embedded as a plain Nat carried verbatim.
- The Go map typesMap (a set of type names) is embedded as List String
  with membership lookup.
-/

namespace Generator

/-- Embeds the Go constant TypeKindSelector. -/
def TypeKindSelector : String := "selector"

/-- Embeds the Go constant TypeKindStar. -/
def TypeKindStar : String := "star"

/-- Embeds the Go constant TypeKindIdent. -/
def TypeKindIdent : String := "ident"

/-- Embeds the Go constant TypeKindEllipsis. -/
def TypeKindEllipsis : String := "ellipsis"

/-- Embeds the Go constant TypeKindArray. -/
def TypeKindArray : String := "array"

/-- Embeds the Go constant TypeKindFunc. -/
def TypeKindFunc : String := "func"

/-- Embeds the Go constant TypeKindMap. -/
def TypeKindMap : String := "map"

/-- Embeds the Go constant TypeKindInterface. -/
def TypeKindInterface : String := "interface"

/-- Embeds the Go constant TypeKindChan. -/
def TypeKindChan : String := "chan"

/-- Embeds ast.SEND (the send-only channel direction bit). -/
def astSEND : Nat := 1

/-- Embeds ast.RECV (the receive-only channel direction bit). -/
def astRECV : Nat := 2

mutual
/-- Embeds the Go struct Type from internal/generator/type.go: a flat
tagged record.  Field order and names follow the Go source: Child,
Package, Name, Kind, Results, Params, mapKeyType, mapValType, chanDir.
Nilable pointers become Option Ty. -/
inductive Ty : Type where
  | mk : (Child : Option Ty) → (Package : String) → (Name : String) →
         (Kind : String) → (Results : List Param) → (Params : List Param) →
         (mapKeyType : Option Ty) → (mapValType : Option Ty) →
         (chanDir : Nat) → Ty

/-- Modelled from the spec: the struct Param (its Go source file is not
under src/).  Per the spec a Param is a name, optional and possibly
empty for unnamed slots, plus one owned, required Type. -/
inductive Param : Type where
  | mk : (name : String) → (type : Ty) → Param
end

/-- Field accessor: Child. -/
def Ty.Child : Ty → Option Ty
  | .mk c _ _ _ _ _ _ _ _ => c

/-- Field accessor: Package. -/
def Ty.Package : Ty → String
  | .mk _ p _ _ _ _ _ _ _ => p

/-- Field accessor: Name. -/
def Ty.Name : Ty → String
  | .mk _ _ n _ _ _ _ _ _ => n

/-- Field accessor: Kind. -/
def Ty.Kind : Ty → String
  | .mk _ _ _ k _ _ _ _ _ => k

/-- Field accessor: Results. -/
def Ty.Results : Ty → List Param
  | .mk _ _ _ _ r _ _ _ _ => r

/-- Field accessor: Params. -/
def Ty.Params : Ty → List Param
  | .mk _ _ _ _ _ p _ _ _ => p

/-- Field accessor: mapKeyType. -/
def Ty.mapKeyType : Ty → Option Ty
  | .mk _ _ _ _ _ _ k _ _ => k

/-- Field accessor: mapValType. -/
def Ty.mapValType : Ty → Option Ty
  | .mk _ _ _ _ _ _ _ v _ => v

/-- Field accessor: chanDir. -/
def Ty.chanDir : Ty → Nat
  | .mk _ _ _ _ _ _ _ _ d => d

/-- Field accessor: a Param's type. -/
def Param.type : Param → Ty
  | .mk _ t => t

/-- Field accessor: a Param's name. -/
def Param.pname : Param → String
  | .mk n _ => n

mutual
/-- Embeds the Go method String on *Type (the renderer).  The Go switch
on t.Kind becomes a chain of string comparisons in source order; the
final return of the empty string after the switch becomes the last
branch.  A Go nil-pointer dereference (calling String through a nil
child) is modelled as none. -/
def Ty.String : Ty → Option String
  | .mk child pkg nm kind results params mkey mval dir =>
    if kind = TypeKindStar then
      match stringOpt child with
      | none => none
      | some s => some ("*" ++ s)
    else if kind = TypeKindIdent then
      some (if pkg = "" then nm else pkg ++ "." ++ nm)
    else if kind = TypeKindEllipsis then
      match stringOpt child with
      | none => none
      | some s => some ("..." ++ s)
    else if kind = TypeKindArray then
      match stringOpt child with
      | none => none
      | some s => some ("[]" ++ s)
    else if kind = TypeKindMap then
      match stringOpt mkey, stringOpt mval with
      | some k, some v => some ("map[" ++ k ++ "]" ++ v)
      | _, _ => none
    else if kind = TypeKindSelector then
      some (pkg ++ "." ++ nm)
    else if kind = TypeKindInterface then
      some "interface\x7b\x7d"
    else if kind = TypeKindFunc then
      match stringParams params, stringParams results with
      | some ps, some rs =>
        some ("func(" ++ String.intercalate ", " ps ++ ") " ++
          (if rs.length > 1 then
            "(" ++ String.intercalate ", " rs ++ ")"
          else String.intercalate ", " rs))
      | _, _ => none
    else if kind = TypeKindChan then
      match stringOpt child with
      | none => none
      | some s =>
        some (if dir = astRECV then "<-chan " ++ s
          else if dir = astSEND then "chan<- " ++ s
          else "chan " ++ s)
    else
      some ""

/-- Dereference of a nilable *Type followed by String: nil aborts. -/
def stringOpt : Option Ty → Option String
  | none => none
  | some t => Ty.String t

/-- Modelled from the spec: the method String on Param (its Go source
file is not under src/).  Per the spec, parameter names are dropped from
the rendered signature and only the type is emitted. -/
def Param.String : Param → Option String
  | .mk _ t => Ty.String t

/-- Embeds the loop in the TypeKindFunc branch of Type.String that
renders each Param of a slice in order. -/
def stringParams : List Param → Option (List String)
  | [] => some []
  | p :: ps =>
    match Param.String p, stringParams ps with
    | some s, some rest => some (s :: rest)
    | _, _ => none
end

mutual
/-- Embeds the go/ast node shapes dispatched by ParseType.  Each
constructor corresponds to one case of the Go type switch:
SelectorExpr (X and Sel, with Sel an identifier), Ident, Ellipsis (Elt),
StarExpr (X), FuncType (Params and Results field lists), ArrayType
(Elt), MapType (Key and Value), InterfaceType (its Methods field list,
so that non-empty interfaces are representable), ChanType (Dir and
Value).  The constructor unsupported stands for every other go/ast node
shape, all of which fall to the default panic branch. -/
inductive AstNode : Type where
  | selectorExpr : AstNode → String → AstNode
  | ident : String → AstNode
  | ellipsis : AstNode → AstNode
  | star : AstNode → AstNode
  | funcType : List AstField → List AstField → AstNode
  | arrayType : AstNode → AstNode
  | mapType : AstNode → AstNode → AstNode
  | interfaceType : List AstField → AstNode
  | chanType : Nat → AstNode → AstNode
  | unsupported : AstNode

/-- Embeds ast.Field: a list of declared names (empty for an unnamed
slot) and one type expression.  A grouped declaration of the form
a, b T is one field with two names. -/
inductive AstField : Type where
  | mk : (names : List String) → (type : AstNode) → AstField
end

/-- Field accessor: an ast.Field's declared names. -/
def AstField.names : AstField → List String
  | .mk ns _ => ns

/-- Field accessor: an ast.Field's type expression. -/
def AstField.type : AstField → AstNode
  | .mk _ t => t

/-- Modelled from the spec: the helper identName (its Go source file is
not under src/).  It projects the name out of an identifier node; the
spec describes a Selector's Package as the name of X. -/
def identName : AstNode → String
  | .ident nm => nm
  | _ => ""

/-- Embeds the closure formatPackage declared inside ParseType, with the
captured typesMap and sourcePackageName made explicit arguments.  Note
the Go body: a non-empty pkg yields the empty string, otherwise a
typeName found in typesMap yields sourcePackageName, otherwise pkg
(which is empty) is returned. -/
def formatPackage (typesMap : List String) (sourcePackageName : String)
    (pkg typeName : String) : String :=
  if pkg ≠ "" then ""
  else if typeName ∈ typesMap then sourcePackageName
  else pkg

mutual
/-- Embeds the Go function ParseType: the type switch over the node,
one case per supported shape, with the default branch panicking
(modelled as none).  Recursive child parses propagate an abort. -/
def ParseType (node : AstNode) (typesMap : List String)
    (sourcePackageName : String) : Option Ty :=
  match node with
  | .selectorExpr x sel =>
    some (.mk none (identName x) sel TypeKindSelector [] [] none none 0)
  | .ident nm =>
    some (.mk none (formatPackage typesMap sourcePackageName "" (identName (.ident nm)))
      (identName (.ident nm)) TypeKindIdent [] [] none none 0)
  | .ellipsis elt =>
    match ParseType elt typesMap sourcePackageName with
    | none => none
    | some c => some (.mk (some c) "" "" TypeKindEllipsis [] [] none none 0)
  | .star x =>
    match ParseType x typesMap sourcePackageName with
    | none => none
    | some c => some (.mk (some c) "" "" TypeKindStar [] [] none none 0)
  | .funcType fparams fresults =>
    match ParseMany fparams typesMap sourcePackageName,
          ParseMany fresults typesMap sourcePackageName with
    | some ps, some rs => some (.mk none "" "" TypeKindFunc rs ps none none 0)
    | _, _ => none
  | .arrayType elt =>
    match ParseType elt typesMap sourcePackageName with
    | none => none
    | some c => some (.mk (some c) "" "" TypeKindArray [] [] none none 0)
  | .mapType key value =>
    match ParseType key typesMap sourcePackageName,
          ParseType value typesMap sourcePackageName with
    | some k, some v => some (.mk none "" "" TypeKindMap [] [] (some k) (some v) 0)
    | _, _ => none
  | .interfaceType _ =>
    some (.mk none "" "" TypeKindInterface [] [] none none 0)
  | .chanType dir value =>
    match ParseType value typesMap sourcePackageName with
    | none => none
    | some c => some (.mk (some c) "" "" TypeKindChan [] [] none none dir)
  | .unsupported => none
termination_by sizeOf node

/-- Modelled from the spec: ParseMany (its Go source file is not under
src/).  It flattens a field list into an ordered list of one Param per
declared slot, expanding a grouped declaration a, b T into two Params of
type T in declared order, and aborting if any slot's type parse aborts. -/
def ParseMany (fields : List AstField) (typesMap : List String)
    (sourcePackageName : String) : Option (List Param) :=
  match fields with
  | [] => some []
  | f :: fs =>
    match parseField f typesMap sourcePackageName,
          ParseMany fs typesMap sourcePackageName with
    | some ps, some rest => some (ps ++ rest)
    | _, _ => none
termination_by sizeOf fields

/-- Modelled from the spec: expansion of one field into its Params.  An
unnamed field yields one Param with an empty name; a field with k names
yields k Params of the field's type, preserving order. -/
def parseField (f : AstField) (typesMap : List String)
    (sourcePackageName : String) : Option (List Param) :=
  match f with
  | .mk names ty =>
    match ParseType ty typesMap sourcePackageName with
    | none => none
    | some t =>
      match names with
      | [] => some [Param.mk "" t]
      | ns => some (ns.map fun n => Param.mk n t)
termination_by sizeOf f
end

/-- Embeds an ast.File for parseTypesFromFile, abstracted to the
sequence of nodes that ast.Inspect visits: each visited node is either a
TypeSpec carrying its declared name, or some other node. -/
inductive FileNode : Type where
  | typeSpec : String → FileNode
  | other : FileNode

/-- Embeds ast.IsExported as used by ts.Name.IsExported: true exactly
when the name starts with an upper-case letter (ASCII suffices for the
identifiers considered here; the empty name is not exported). -/
def isExported (nm : String) : Bool :=
  match nm.data with
  | [] => false
  | c :: _ => c.isUpper

/-- Embeds the Go function parseTypesFromFile: the ast.Inspect walk
appends, in visit order, the name of every TypeSpec whose name is
exported. -/
def parseTypesFromFile (fileAst : List FileNode) : List String :=
  fileAst.filterMap fun node =>
    match node with
    | .typeSpec nm => if isExported nm then some nm else none
    | .other => none

mutual
/-- The model invariants of a Ty tree: a Map kind has both map types
non-nil, a Pointer, Variadic, Array/Slice or Channel kind has a non-nil
Child, and every reachable child, map type and Param satisfies the same
invariants. -/
def Ty.wf : Ty → Bool
  | .mk child _ _ kind results params mkey mval _ =>
    (if kind = TypeKindMap then mkey.isSome && mval.isSome else true) &&
    (if kind = TypeKindStar ∨ kind = TypeKindEllipsis ∨
        kind = TypeKindArray ∨ kind = TypeKindChan then
      child.isSome else true) &&
    wfOpt child && wfOpt mkey && wfOpt mval &&
    wfParams results && wfParams params

/-- Invariants of a nilable child: nil is vacuously fine. -/
def wfOpt : Option Ty → Bool
  | none => true
  | some t => Ty.wf t

/-- Invariants of a Param: its owned type satisfies the invariants. -/
def Param.wf : Param → Bool
  | .mk _ t => Ty.wf t

/-- Invariants of a Param list, slotwise. -/
def wfParams : List Param → Bool
  | [] => true
  | p :: ps => Param.wf p && wfParams ps
end

/-- Renderer equation for the Identifier kind. -/
theorem string_ident (child : Option Ty) (pkg nm : String)
    (results params : List Param) (mkey mval : Option Ty) (dir : Nat) :
    Ty.String (.mk child pkg nm TypeKindIdent results params mkey mval dir) =
      some (if pkg = "" then nm else pkg ++ "." ++ nm) := by
  rw [Ty.String]
  simp [TypeKindIdent, TypeKindStar]

/-- Renderer equation for the Selector kind. -/
theorem string_selector (child : Option Ty) (pkg nm : String)
    (results params : List Param) (mkey mval : Option Ty) (dir : Nat) :
    Ty.String (.mk child pkg nm TypeKindSelector results params mkey mval dir) =
      some (pkg ++ "." ++ nm) := by
  rw [Ty.String]
  simp [TypeKindSelector, TypeKindStar, TypeKindIdent, TypeKindEllipsis,
    TypeKindArray, TypeKindMap]

/-- Renderer equation for the Pointer kind, on a present child. -/
theorem string_star (c : Ty) (pkg nm : String)
    (results params : List Param) (mkey mval : Option Ty) (dir : Nat) :
    Ty.String (.mk (some c) pkg nm TypeKindStar results params mkey mval dir) =
      match Ty.String c with
      | none => none
      | some s => some ("*" ++ s) := by
  rw [Ty.String]
  simp [TypeKindStar, stringOpt]

/-- Renderer equation for the Variadic kind, on a present child. -/
theorem string_ellipsis (c : Ty) (pkg nm : String)
    (results params : List Param) (mkey mval : Option Ty) (dir : Nat) :
    Ty.String (.mk (some c) pkg nm TypeKindEllipsis results params mkey mval dir) =
      match Ty.String c with
      | none => none
      | some s => some ("..." ++ s) := by
  rw [Ty.String]
  simp [TypeKindEllipsis, TypeKindStar, TypeKindIdent, stringOpt]

/-- Renderer equation for the Array/Slice kind, on a present child. -/
theorem string_array (c : Ty) (pkg nm : String)
    (results params : List Param) (mkey mval : Option Ty) (dir : Nat) :
    Ty.String (.mk (some c) pkg nm TypeKindArray results params mkey mval dir) =
      match Ty.String c with
      | none => none
      | some s => some ("[]" ++ s) := by
  rw [Ty.String]
  simp [TypeKindArray, TypeKindStar, TypeKindIdent, TypeKindEllipsis, stringOpt]

/-- Renderer equation for the Map kind, on present key and value. -/
theorem string_map (child : Option Ty) (pkg nm : String)
    (results params : List Param) (k v : Ty) (dir : Nat) :
    Ty.String (.mk child pkg nm TypeKindMap results params (some k) (some v) dir) =
      match Ty.String k, Ty.String v with
      | some ks, some vs => some ("map[" ++ ks ++ "]" ++ vs)
      | _, _ => none := by
  rw [Ty.String]
  simp [TypeKindMap, TypeKindStar, TypeKindIdent, TypeKindEllipsis,
    TypeKindArray, stringOpt]

/-- Renderer equation for the AnyInterface kind. -/
theorem string_interface (child : Option Ty) (pkg nm : String)
    (results params : List Param) (mkey mval : Option Ty) (dir : Nat) :
    Ty.String (.mk child pkg nm TypeKindInterface results params mkey mval dir) =
      some "interface\x7b\x7d" := by
  rw [Ty.String]
  simp [TypeKindInterface, TypeKindStar, TypeKindIdent, TypeKindEllipsis,
    TypeKindArray, TypeKindMap, TypeKindSelector]

/-- Renderer equation for the Function kind. -/
theorem string_func (child : Option Ty) (pkg nm : String)
    (results params : List Param) (mkey mval : Option Ty) (dir : Nat) :
    Ty.String (.mk child pkg nm TypeKindFunc results params mkey mval dir) =
      match stringParams params, stringParams results with
      | some ps, some rs =>
        some ("func(" ++ String.intercalate ", " ps ++ ") " ++
          (if rs.length > 1 then
            "(" ++ String.intercalate ", " rs ++ ")"
          else String.intercalate ", " rs))
      | _, _ => none := by
  rw [Ty.String]
  simp [TypeKindFunc, TypeKindStar, TypeKindIdent, TypeKindEllipsis,
    TypeKindArray, TypeKindMap, TypeKindSelector, TypeKindInterface]

/-- Renderer equation for the Channel kind, on a present child. -/
theorem string_chan (c : Ty) (pkg nm : String)
    (results params : List Param) (mkey mval : Option Ty) (dir : Nat) :
    Ty.String (.mk (some c) pkg nm TypeKindChan results params mkey mval dir) =
      match Ty.String c with
      | none => none
      | some s =>
        some (if dir = astRECV then "<-chan " ++ s
          else if dir = astSEND then "chan<- " ++ s
          else "chan " ++ s) := by
  rw [Ty.String]
  simp [TypeKindChan, TypeKindStar, TypeKindIdent, TypeKindEllipsis,
    TypeKindArray, TypeKindMap, TypeKindSelector, TypeKindInterface,
    TypeKindFunc, stringOpt]

/-- Renderer equation for any kind outside the nine recognized ones:
the switch falls through and the empty string is returned. -/
theorem string_unknown (child : Option Ty) (pkg nm kind : String)
    (results params : List Param) (mkey mval : Option Ty) (dir : Nat)
    (h1 : kind ≠ TypeKindStar) (h2 : kind ≠ TypeKindIdent)
    (h3 : kind ≠ TypeKindEllipsis) (h4 : kind ≠ TypeKindArray)
    (h5 : kind ≠ TypeKindMap) (h6 : kind ≠ TypeKindSelector)
    (h7 : kind ≠ TypeKindInterface) (h8 : kind ≠ TypeKindFunc)
    (h9 : kind ≠ TypeKindChan) :
    Ty.String (.mk child pkg nm kind results params mkey mval dir) =
      some "" := by
  rw [Ty.String]
  simp [h1, h2, h3, h4, h5, h6, h7, h8, h9]

/-- A Param list built from one type under several names is slotwise
well formed when the type is. -/
theorem wfParams_map_const (ns : List String) (t : Ty) (h : Ty.wf t = true) :
    wfParams (ns.map fun n => Param.mk n t) = true := by
  induction ns with
  | nil => simp [wfParams]
  | cons n ns ih => simp [wfParams, Param.wf, h, ih]

/-- Well-formedness of Param lists is preserved by concatenation. -/
theorem wfParams_append (a b : List Param) (ha : wfParams a = true)
    (hb : wfParams b = true) : wfParams (a ++ b) = true := by
  induction a with
  | nil => simpa using hb
  | cons q qs ih =>
    rw [wfParams] at ha
    simp only [Bool.and_eq_true] at ha
    simp only [List.cons_append, wfParams, Bool.and_eq_true]
    exact ⟨ha.1, ih ha.2⟩

mutual
/-- Every Ty returned by ParseType satisfies the model invariants. -/
theorem parse_wf (node : AstNode) (m : List String) (p : String) (t : Ty)
    (h : ParseType node m p = some t) : Ty.wf t = true := by
  cases node with
  | selectorExpr x sel =>
    rw [ParseType] at h
    injection h with h
    subst h
    simp [Ty.wf, wfOpt, wfParams, TypeKindSelector, TypeKindMap,
      TypeKindStar, TypeKindEllipsis, TypeKindArray, TypeKindChan]
  | ident nm =>
    rw [ParseType] at h
    injection h with h
    subst h
    simp [Ty.wf, wfOpt, wfParams, TypeKindIdent, TypeKindMap,
      TypeKindStar, TypeKindEllipsis, TypeKindArray, TypeKindChan]
  | ellipsis elt =>
    rw [ParseType] at h
    split at h
    · exact Option.noConfusion h
    · rename_i c he
      injection h with h
      subst h
      have hc := parse_wf elt m p c he
      simp [Ty.wf, wfOpt, wfParams, hc, TypeKindEllipsis, TypeKindMap,
        TypeKindStar, TypeKindArray, TypeKindChan]
  | star x =>
    rw [ParseType] at h
    split at h
    · exact Option.noConfusion h
    · rename_i c he
      injection h with h
      subst h
      have hc := parse_wf x m p c he
      simp [Ty.wf, wfOpt, wfParams, hc, TypeKindStar, TypeKindMap,
        TypeKindEllipsis, TypeKindArray, TypeKindChan]
  | funcType fparams fresults =>
    rw [ParseType] at h
    split at h
    · rename_i ps rs hps hrs
      injection h with h
      subst h
      have h1 := parseMany_wf fparams m p ps hps
      have h2 := parseMany_wf fresults m p rs hrs
      simp [Ty.wf, wfOpt, h1, h2, TypeKindFunc, TypeKindMap,
        TypeKindStar, TypeKindEllipsis, TypeKindArray, TypeKindChan]
    · exact Option.noConfusion h
  | arrayType elt =>
    rw [ParseType] at h
    split at h
    · exact Option.noConfusion h
    · rename_i c he
      injection h with h
      subst h
      have hc := parse_wf elt m p c he
      simp [Ty.wf, wfOpt, wfParams, hc, TypeKindArray, TypeKindMap,
        TypeKindStar, TypeKindEllipsis, TypeKindChan]
  | mapType key value =>
    rw [ParseType] at h
    split at h
    · rename_i k v hk hv
      injection h with h
      subst h
      have h1 := parse_wf key m p k hk
      have h2 := parse_wf value m p v hv
      simp [Ty.wf, wfOpt, wfParams, h1, h2, TypeKindMap,
        TypeKindStar, TypeKindEllipsis, TypeKindArray, TypeKindChan]
    · exact Option.noConfusion h
  | interfaceType methods =>
    rw [ParseType] at h
    injection h with h
    subst h
    simp [Ty.wf, wfOpt, wfParams, TypeKindInterface, TypeKindMap,
      TypeKindStar, TypeKindEllipsis, TypeKindArray, TypeKindChan]
  | chanType dir value =>
    rw [ParseType] at h
    split at h
    · exact Option.noConfusion h
    · rename_i c he
      injection h with h
      subst h
      have hc := parse_wf value m p c he
      simp [Ty.wf, wfOpt, wfParams, hc, TypeKindChan, TypeKindMap,
        TypeKindStar, TypeKindEllipsis, TypeKindArray]
  | unsupported =>
    rw [ParseType] at h
    exact Option.noConfusion h
termination_by sizeOf node

/-- Every Param list returned by ParseMany is slotwise well formed. -/
theorem parseMany_wf (fs : List AstField) (m : List String) (p : String)
    (ps : List Param) (h : ParseMany fs m p = some ps) :
    wfParams ps = true := by
  cases fs with
  | nil =>
    rw [ParseMany] at h
    injection h with h
    subst h
    simp [wfParams]
  | cons f rest =>
    rw [ParseMany] at h
    split at h
    · rename_i a b ha hb
      injection h with h
      subst h
      exact wfParams_append a b (parseField_wf f m p a ha)
        (parseMany_wf rest m p b hb)
    · exact Option.noConfusion h
termination_by sizeOf fs

/-- Every Param list returned by parseField is slotwise well formed. -/
theorem parseField_wf (f : AstField) (m : List String) (p : String)
    (ps : List Param) (h : parseField f m p = some ps) :
    wfParams ps = true := by
  cases f with
  | mk names ty =>
    rw [parseField] at h
    split at h
    · exact Option.noConfusion h
    · rename_i t0 ht
      have hwf := parse_wf ty m p t0 ht
      split at h
      · injection h with h
        subst h
        simp [wfParams, Param.wf, hwf]
      · injection h with h
        subst h
        exact wfParams_map_const _ t0 hwf
termination_by sizeOf f
end

/-- Rendering a concatenation of Param lists concatenates the rendered
slots when both halves render. -/
theorem stringParams_append (a b : List Param) (as bs : List String)
    (ha : stringParams a = some as) (hb : stringParams b = some bs) :
    stringParams (a ++ b) = some (as ++ bs) := by
  induction a generalizing as with
  | nil =>
    rw [stringParams] at ha
    injection ha with ha
    subst ha
    simpa using hb
  | cons q qs ih =>
    rw [stringParams] at ha
    split at ha
    · rename_i s qrest hq hqs
      injection ha with ha
      subst ha
      simp only [List.cons_append]
      rw [stringParams, hq, ih qrest hqs]
    · exact Option.noConfusion ha

/-- Rendering a Param list built from one type under several names
yields the type's rendering once per slot. -/
theorem stringParams_map_const (ns : List String) (t : Ty) (s : String)
    (h : Ty.String t = some s) :
    stringParams (ns.map fun n => Param.mk n t) =
      some (ns.map fun _ => s) := by
  induction ns with
  | nil => simp [stringParams]
  | cons n ns ih =>
    simp only [List.map_cons]
    rw [stringParams, ih]
    simp [Param.String, h]

mutual
/-- The renderer is defined (does not hit a nil dereference) on every
Ty returned by ParseType. -/
theorem parse_string_isSome (node : AstNode) (m : List String) (p : String)
    (t : Ty) (h : ParseType node m p = some t) :
    (Ty.String t).isSome = true := by
  cases node with
  | selectorExpr x sel =>
    rw [ParseType] at h
    injection h with h
    subst h
    rw [string_selector]
    rfl
  | ident nm =>
    rw [ParseType] at h
    injection h with h
    subst h
    rw [string_ident]
    rfl
  | ellipsis elt =>
    rw [ParseType] at h
    split at h
    · exact Option.noConfusion h
    · rename_i c he
      injection h with h
      subst h
      obtain ⟨s, hs⟩ := Option.isSome_iff_exists.mp (parse_string_isSome elt m p c he)
      rw [string_ellipsis, hs]
      rfl
  | star x =>
    rw [ParseType] at h
    split at h
    · exact Option.noConfusion h
    · rename_i c he
      injection h with h
      subst h
      obtain ⟨s, hs⟩ := Option.isSome_iff_exists.mp (parse_string_isSome x m p c he)
      rw [string_star, hs]
      rfl
  | funcType fparams fresults =>
    rw [ParseType] at h
    split at h
    · rename_i ps rs hps hrs
      injection h with h
      subst h
      obtain ⟨as, has⟩ := Option.isSome_iff_exists.mp (parseMany_string_isSome fparams m p ps hps)
      obtain ⟨bs, hbs⟩ := Option.isSome_iff_exists.mp (parseMany_string_isSome fresults m p rs hrs)
      rw [string_func, has, hbs]
      rfl
    · exact Option.noConfusion h
  | arrayType elt =>
    rw [ParseType] at h
    split at h
    · exact Option.noConfusion h
    · rename_i c he
      injection h with h
      subst h
      obtain ⟨s, hs⟩ := Option.isSome_iff_exists.mp (parse_string_isSome elt m p c he)
      rw [string_array, hs]
      rfl
  | mapType key value =>
    rw [ParseType] at h
    split at h
    · rename_i k v hk hv
      injection h with h
      subst h
      obtain ⟨ks, hks⟩ := Option.isSome_iff_exists.mp (parse_string_isSome key m p k hk)
      obtain ⟨vs, hvs⟩ := Option.isSome_iff_exists.mp (parse_string_isSome value m p v hv)
      rw [string_map, hks, hvs]
      rfl
    · exact Option.noConfusion h
  | interfaceType methods =>
    rw [ParseType] at h
    injection h with h
    subst h
    rw [string_interface]
    rfl
  | chanType dir value =>
    rw [ParseType] at h
    split at h
    · exact Option.noConfusion h
    · rename_i c he
      injection h with h
      subst h
      obtain ⟨s, hs⟩ := Option.isSome_iff_exists.mp (parse_string_isSome value m p c he)
      rw [string_chan, hs]
      rfl
  | unsupported =>
    rw [ParseType] at h
    exact Option.noConfusion h
termination_by sizeOf node

/-- The Param-list renderer is defined on every list returned by
ParseMany. -/
theorem parseMany_string_isSome (fs : List AstField) (m : List String)
    (p : String) (ps : List Param) (h : ParseMany fs m p = some ps) :
    (stringParams ps).isSome = true := by
  cases fs with
  | nil =>
    rw [ParseMany] at h
    injection h with h
    subst h
    rw [stringParams]
    rfl
  | cons f rest =>
    rw [ParseMany] at h
    split at h
    · rename_i a b ha hb
      injection h with h
      subst h
      obtain ⟨as, has⟩ := Option.isSome_iff_exists.mp (parseField_string_isSome f m p a ha)
      obtain ⟨bs, hbs⟩ := Option.isSome_iff_exists.mp (parseMany_string_isSome rest m p b hb)
      rw [stringParams_append a b as bs has hbs]
      rfl
    · exact Option.noConfusion h
termination_by sizeOf fs

/-- The Param-list renderer is defined on every list returned by
parseField. -/
theorem parseField_string_isSome (f : AstField) (m : List String)
    (p : String) (ps : List Param) (h : parseField f m p = some ps) :
    (stringParams ps).isSome = true := by
  cases f with
  | mk names ty =>
    rw [parseField] at h
    split at h
    · exact Option.noConfusion h
    · rename_i t0 ht
      obtain ⟨s, hs⟩ := Option.isSome_iff_exists.mp (parse_string_isSome ty m p t0 ht)
      split at h
      · injection h with h
        subst h
        rw [stringParams]
        simp [Param.String, hs, stringParams]
      · injection h with h
        subst h
        rw [stringParams_map_const _ t0 s hs]
        rfl
termination_by sizeOf f
end

/-- C1 (counterexample): with known-local-types containing Foo and the
destination package name equal to the empty string, the parsed
identifier gets Package equal to the destination name (both empty), but
it renders as Foo, not as the destination name, a dot, and Foo. -/
theorem c1_counterexample :
    ("Foo" ∈ (["Foo"] : List String)) ∧
    ParseType (AstNode.ident "Foo") ["Foo"] "" =
      some (Ty.mk none "" "Foo" TypeKindIdent [] [] none none 0) ∧
    Ty.String (Ty.mk none "" "Foo" TypeKindIdent [] [] none none 0) =
      some "Foo" ∧
    some "Foo" ≠ some ("" ++ "." ++ "Foo") := by
  refine ⟨by decide, ?_, ?_, by decide⟩
  · rw [ParseType]
    simp [identName, formatPackage]
  · rw [string_ident]
    rfl

/-- C1 (amended): for a bare identifier parsed with known-local-types S
and destination package name d, membership of the name in S gives an
Identifier Ty with Package equal to d, rendering as d dot name whenever
d is non-empty (with empty d the rendering is just the name); a name
outside S gives an empty Package and renders as the bare name. -/
theorem c1_ident_qualification (nm : String) (S : List String) (d : String) :
    (nm ∈ S →
      ParseType (AstNode.ident nm) S d =
        some (Ty.mk none d nm TypeKindIdent [] [] none none 0) ∧
      (d ≠ "" →
        Ty.String (Ty.mk none d nm TypeKindIdent [] [] none none 0) =
          some (d ++ "." ++ nm))) ∧
    (nm ∉ S →
      ParseType (AstNode.ident nm) S d =
        some (Ty.mk none "" nm TypeKindIdent [] [] none none 0) ∧
      Ty.String (Ty.mk none "" nm TypeKindIdent [] [] none none 0) =
        some nm) := by
  constructor
  · intro hm
    constructor
    · rw [ParseType]
      simp [identName, formatPackage, hm]
    · intro hd
      rw [string_ident]
      simp [hd]
  · intro hm
    constructor
    · rw [ParseType]
      simp [identName, formatPackage, hm]
    · rw [string_ident]
      simp

/-- Witness for C1: known-local-types Foo, destination package out;
Foo is qualified and renders as out.Foo, Bar stays unqualified and
renders as Bar. -/
theorem c1_witness :
    (ParseType (AstNode.ident "Foo") ["Foo"] "out" =
        some (Ty.mk none "out" "Foo" TypeKindIdent [] [] none none 0) ∧
      Ty.String (Ty.mk none "out" "Foo" TypeKindIdent [] [] none none 0) =
        some ("out" ++ "." ++ "Foo")) ∧
    (ParseType (AstNode.ident "Bar") ["Foo"] "out" =
        some (Ty.mk none "" "Bar" TypeKindIdent [] [] none none 0) ∧
      Ty.String (Ty.mk none "" "Bar" TypeKindIdent [] [] none none 0) =
        some "Bar") := by
  have h1 := (c1_ident_qualification "Foo" ["Foo"] "out").1 (by decide)
  have h2 := (c1_ident_qualification "Bar" ["Foo"] "out").2 (by decide)
  exact ⟨⟨h1.1, h1.2 (by decide)⟩, h2⟩

/-- C2: rendering a Function Ty emits func, the comma-joined parameter
renderings in parentheses, a space, then the result segment: empty for
zero results, the bare single rendering for one result, and the
comma-joined renderings in parentheses for two or more. -/
theorem c2_func_result_arity (child : Option Ty) (pkg nm : String)
    (results params : List Param) (mkey mval : Option Ty) (dir : Nat)
    (ps rs : List String)
    (hps : stringParams params = some ps)
    (hrs : stringParams results = some rs) :
    Ty.String (.mk child pkg nm TypeKindFunc results params mkey mval dir) =
      some ("func(" ++ String.intercalate ", " ps ++ ") " ++
        (if rs.length > 1 then
          "(" ++ String.intercalate ", " rs ++ ")"
        else String.intercalate ", " rs)) ∧
    (rs = [] →
      Ty.String (.mk child pkg nm TypeKindFunc results params mkey mval dir) =
        some ("func(" ++ String.intercalate ", " ps ++ ") ")) ∧
    (∀ r, rs = [r] →
      Ty.String (.mk child pkg nm TypeKindFunc results params mkey mval dir) =
        some ("func(" ++ String.intercalate ", " ps ++ ") " ++ r)) ∧
    (rs.length > 1 →
      Ty.String (.mk child pkg nm TypeKindFunc results params mkey mval dir) =
        some ("func(" ++ String.intercalate ", " ps ++ ") " ++
          ("(" ++ String.intercalate ", " rs ++ ")"))) := by
  have hmain :
      Ty.String (.mk child pkg nm TypeKindFunc results params mkey mval dir) =
        some ("func(" ++ String.intercalate ", " ps ++ ") " ++
          (if rs.length > 1 then
            "(" ++ String.intercalate ", " rs ++ ")"
          else String.intercalate ", " rs)) := by
    rw [string_func, hps, hrs]
  refine ⟨hmain, ?_, ?_, ?_⟩
  · intro he
    subst he
    simpa [String.intercalate] using hmain
  · intro r he
    subst he
    simpa [String.intercalate, String.intercalate.go] using hmain
  · intro hlen
    rw [hmain, if_pos hlen]

/-- Witness for C2: func(int) (int, error) has its two results
parenthesized. -/
theorem c2_witness :
    Ty.String (Ty.mk none "" "" TypeKindFunc
        [Param.mk "" (Ty.mk none "" "int" TypeKindIdent [] [] none none 0),
         Param.mk "" (Ty.mk none "" "error" TypeKindIdent [] [] none none 0)]
        [Param.mk "" (Ty.mk none "" "int" TypeKindIdent [] [] none none 0)]
        none none 0) =
      some ("func(" ++ String.intercalate ", " ["int"] ++ ") " ++
        (if (["int", "error"] : List String).length > 1 then
          "(" ++ String.intercalate ", " ["int", "error"] ++ ")"
        else String.intercalate ", " ["int", "error"])) :=
  (c2_func_result_arity none "" ""
    [Param.mk "" (Ty.mk none "" "int" TypeKindIdent [] [] none none 0),
     Param.mk "" (Ty.mk none "" "error" TypeKindIdent [] [] none none 0)]
    [Param.mk "" (Ty.mk none "" "int" TypeKindIdent [] [] none none 0)]
    none none 0 ["int"] ["int", "error"]
    (by simp [stringParams, Param.String, string_ident])
    (by simp [stringParams, Param.String, string_ident])).1

/-- C3 (counterexample): a non-empty interface node, here one declaring
a method M, does not abort ParseType: the parser returns the
AnyInterface Ty, which renders as the empty interface. -/
theorem c3_counterexample :
    ParseType
        (AstNode.interfaceType [AstField.mk ["M"] (AstNode.funcType [] [])])
        [] "out" =
      some (Ty.mk none "" "" TypeKindInterface [] [] none none 0) ∧
    Ty.String (Ty.mk none "" "" TypeKindInterface [] [] none none 0) =
      some "interface\x7b\x7d" := by
  constructor
  · rw [ParseType]
  · exact string_interface none "" "" [] [] none none 0

/-- C3 (amended): ParseType maps every interface node, with or without
declared methods, to the AnyInterface kind and never aborts on one; a
non-empty interface is silently degraded rather than rejected. -/
theorem c3_interface_no_abort (methods : List AstField) (S : List String)
    (d : String) :
    ParseType (AstNode.interfaceType methods) S d =
      some (Ty.mk none "" "" TypeKindInterface [] [] none none 0) := by
  rw [ParseType]

/-- C4: a qualified reference X.Y parses to a Selector Ty whose Name is
Y and whose Package is the name of X; every Selector-kind Ty renders as
its Package, a dot, and its Name; and the Package of a parsed Selector
is non-empty whenever the source identifier X is. -/
theorem c4_selector (x : AstNode) (y : String) (S : List String)
    (d : String) :
    ParseType (AstNode.selectorExpr x y) S d =
      some (Ty.mk none (identName x) y TypeKindSelector [] [] none none 0) ∧
    (∀ t : Ty, t.Kind = TypeKindSelector →
      Ty.String t = some (t.Package ++ "." ++ t.Name)) ∧
    (∀ pnm : String, x = AstNode.ident pnm → pnm ≠ "" → identName x ≠ "") := by
  refine ⟨by rw [ParseType], ?_, ?_⟩
  · intro t ht
    cases t with
    | mk c pkg nm kind results params mkey mval dir =>
      simp only [Ty.Kind] at ht
      subst ht
      rw [string_selector]
      simp [Ty.Package, Ty.Name]
  · intro pnm hx hne
    subst hx
    simpa [identName] using hne

/-- Witness for C4: pkg.Baz parses to a Selector with Package pkg and
Name Baz and renders accordingly, with a non-empty Package. -/
theorem c4_witness :
    ParseType (AstNode.selectorExpr (AstNode.ident "pkg") "Baz") [] "out" =
      some (Ty.mk none (identName (AstNode.ident "pkg")) "Baz"
        TypeKindSelector [] [] none none 0) ∧
    Ty.String (Ty.mk none "pkg" "Baz" TypeKindSelector [] [] none none 0) =
      some ((Ty.mk none "pkg" "Baz" TypeKindSelector [] [] none none 0).Package
        ++ "." ++
        (Ty.mk none "pkg" "Baz" TypeKindSelector [] [] none none 0).Name) ∧
    identName (AstNode.ident "pkg") ≠ "" := by
  have h := c4_selector (AstNode.ident "pkg") "Baz" [] "out"
  exact ⟨h.1, h.2.1 _ (by simp [Ty.Kind]), h.2.2 "pkg" rfl (by decide)⟩

/-- C5: the default branch of the type switch: a node shape outside the
supported grammar makes ParseType abort (panic), never returning a Ty. -/
theorem c5_unsupported_abort (S : List String) (d : String) :
    ParseType AstNode.unsupported S d = none := by
  rw [ParseType]

/-- C6: a Ty whose Kind is outside the nine recognized kinds renders as
the empty string: the renderer silently degrades instead of failing. -/
theorem c6_unknown_kind_empty (t : Ty)
    (h : t.Kind ∉ [TypeKindSelector, TypeKindStar, TypeKindIdent,
      TypeKindEllipsis, TypeKindArray, TypeKindFunc, TypeKindMap,
      TypeKindInterface, TypeKindChan]) :
    Ty.String t = some "" := by
  cases t with
  | mk c pkg nm kind results params mkey mval dir =>
    simp only [Ty.Kind, List.mem_cons, List.not_mem_nil, or_false,
      not_or] at h
    obtain ⟨h6, h1, h2, h3, h4, h8, h5, h7, h9⟩ := h
    exact string_unknown c pkg nm kind results params mkey mval dir
      h1 h2 h3 h4 h5 h6 h7 h8 h9

/-- Witness for C6: the unrecognized kind bogus renders as the empty
string. -/
theorem c6_witness :
    Ty.String (Ty.mk none "" "" "bogus" [] [] none none 0) = some "" :=
  c6_unknown_kind_empty (Ty.mk none "" "" "bogus" [] [] none none 0)
    (by decide)

/-- C7: rendering a Channel Ty depends only on the stored direction
(bidirectional SEND plus RECV is 3, receive-only is ast.RECV, send-only
is ast.SEND), and ParseType copies the source annotation's direction
verbatim into the Ty it builds. -/
theorem c7_chan (c : Ty) (s : String) (hc : Ty.String c = some s) :
    (∀ (pkg nm : String) (results params : List Param)
        (mkey mval : Option Ty),
      Ty.String (Ty.mk (some c) pkg nm TypeKindChan results params
          mkey mval 3) = some ("chan " ++ s) ∧
      Ty.String (Ty.mk (some c) pkg nm TypeKindChan results params
          mkey mval astRECV) = some ("<-chan " ++ s) ∧
      Ty.String (Ty.mk (some c) pkg nm TypeKindChan results params
          mkey mval astSEND) = some ("chan<- " ++ s)) ∧
    (∀ (dir : Nat) (v : AstNode) (S : List String) (d : String) (c0 : Ty),
      ParseType v S d = some c0 →
      ParseType (AstNode.chanType dir v) S d =
        some (Ty.mk (some c0) "" "" TypeKindChan [] [] none none dir)) := by
  constructor
  · intro pkg nm results params mkey mval
    refine ⟨?_, ?_, ?_⟩
    · rw [string_chan, hc]
      simp [astRECV, astSEND]
    · rw [string_chan, hc]
      simp [astRECV]
    · rw [string_chan, hc]
      simp [astRECV, astSEND]
  · intro dir v S d c0 h
    rw [ParseType, h]

/-- Witness for C7: chan int, receive-only and send-only channels of int
render with the three direction markers, and parsing a receive-only
channel of int preserves direction 2. -/
theorem c7_witness :
    (Ty.String (Ty.mk (some (Ty.mk none "" "int" TypeKindIdent [] []
        none none 0)) "" "" TypeKindChan [] [] none none 3) =
      some ("chan " ++ "int") ∧
    Ty.String (Ty.mk (some (Ty.mk none "" "int" TypeKindIdent [] []
        none none 0)) "" "" TypeKindChan [] [] none none astRECV) =
      some ("<-chan " ++ "int") ∧
    Ty.String (Ty.mk (some (Ty.mk none "" "int" TypeKindIdent [] []
        none none 0)) "" "" TypeKindChan [] [] none none astSEND) =
      some ("chan<- " ++ "int")) ∧
    ParseType (AstNode.chanType 2 (AstNode.ident "int")) [] "out" =
      some (Ty.mk (some (Ty.mk none "" "int" TypeKindIdent [] []
        none none 0)) "" "" TypeKindChan [] [] none none 2) := by
  have h := c7_chan (Ty.mk none "" "int" TypeKindIdent [] [] none none 0)
    "int" (by rw [string_ident]; rfl)
  exact ⟨h.1 "" "" [] [] none none,
    h.2 2 (AstNode.ident "int") [] "out"
      (Ty.mk none "" "int" TypeKindIdent [] [] none none 0)
      (by rw [ParseType]; simp [identName, formatPackage])⟩

/-- Reading the per-kind invariants off the well-formedness record of a
Ty value. -/
theorem wf_fields (c : Option Ty) (pkg nm kind : String)
    (results params : List Param) (mkey mval : Option Ty) (dir : Nat)
    (hw : Ty.wf (.mk c pkg nm kind results params mkey mval dir) = true) :
    (kind = TypeKindMap → mkey.isSome = true ∧ mval.isSome = true) ∧
    (kind = TypeKindStar ∨ kind = TypeKindEllipsis ∨
      kind = TypeKindArray ∨ kind = TypeKindChan → c.isSome = true) := by
  rw [Ty.wf] at hw
  simp only [Bool.and_eq_true] at hw
  obtain ⟨⟨⟨⟨⟨⟨h1, h2⟩, _⟩, _⟩, _⟩, _⟩, _⟩ := hw
  constructor
  · intro hk
    rw [if_pos hk] at h1
    simpa [Bool.and_eq_true] using h1
  · intro hk
    rw [if_pos hk] at h2
    exact h2

/-- C8: every Ty returned by ParseType satisfies the model invariants,
recursively: the whole tree is well formed, a Map has both map types
present, and a Pointer, Variadic, Array/Slice or Channel has a present
Child. -/
theorem c8_parse_wellformed (node : AstNode) (m : List String)
    (p : String) (t : Ty) (h : ParseType node m p = some t) :
    Ty.wf t = true ∧
    (t.Kind = TypeKindMap →
      (t.mapKeyType).isSome = true ∧ (t.mapValType).isSome = true) ∧
    (t.Kind = TypeKindStar ∨ t.Kind = TypeKindEllipsis ∨
      t.Kind = TypeKindArray ∨ t.Kind = TypeKindChan →
      (t.Child).isSome = true) := by
  have hw := parse_wf node m p t h
  refine ⟨hw, ?_⟩
  cases t with
  | mk c pkg nm kind results params mkey mval dir =>
    simpa [Ty.Kind, Ty.Child, Ty.mapKeyType, Ty.mapValType] using
      wf_fields c pkg nm kind results params mkey mval dir hw

/-- Witness for C8: the parse of map[string]int is well formed and has
both map types present. -/
theorem c8_witness :
    Ty.wf (Ty.mk none "" "" TypeKindMap [] []
        (some (Ty.mk none "" "string" TypeKindIdent [] [] none none 0))
        (some (Ty.mk none "" "int" TypeKindIdent [] [] none none 0))
        0) = true ∧
    ((Ty.mk none "" "" TypeKindMap [] []
        (some (Ty.mk none "" "string" TypeKindIdent [] [] none none 0))
        (some (Ty.mk none "" "int" TypeKindIdent [] [] none none 0))
        0).Kind = TypeKindMap →
      ((Ty.mk none "" "" TypeKindMap [] []
        (some (Ty.mk none "" "string" TypeKindIdent [] [] none none 0))
        (some (Ty.mk none "" "int" TypeKindIdent [] [] none none 0))
        0).mapKeyType).isSome = true ∧
      ((Ty.mk none "" "" TypeKindMap [] []
        (some (Ty.mk none "" "string" TypeKindIdent [] [] none none 0))
        (some (Ty.mk none "" "int" TypeKindIdent [] [] none none 0))
        0).mapValType).isSome = true) ∧
    ((Ty.mk none "" "" TypeKindMap [] []
        (some (Ty.mk none "" "string" TypeKindIdent [] [] none none 0))
        (some (Ty.mk none "" "int" TypeKindIdent [] [] none none 0))
        0).Kind = TypeKindStar ∨
      (Ty.mk none "" "" TypeKindMap [] []
        (some (Ty.mk none "" "string" TypeKindIdent [] [] none none 0))
        (some (Ty.mk none "" "int" TypeKindIdent [] [] none none 0))
        0).Kind = TypeKindEllipsis ∨
      (Ty.mk none "" "" TypeKindMap [] []
        (some (Ty.mk none "" "string" TypeKindIdent [] [] none none 0))
        (some (Ty.mk none "" "int" TypeKindIdent [] [] none none 0))
        0).Kind = TypeKindArray ∨
      (Ty.mk none "" "" TypeKindMap [] []
        (some (Ty.mk none "" "string" TypeKindIdent [] [] none none 0))
        (some (Ty.mk none "" "int" TypeKindIdent [] [] none none 0))
        0).Kind = TypeKindChan →
      ((Ty.mk none "" "" TypeKindMap [] []
        (some (Ty.mk none "" "string" TypeKindIdent [] [] none none 0))
        (some (Ty.mk none "" "int" TypeKindIdent [] [] none none 0))
        0).Child).isSome = true) :=
  c8_parse_wellformed
    (AstNode.mapType (AstNode.ident "string") (AstNode.ident "int"))
    [] "out" _
    (by rw [ParseType]
        simp [ParseType, identName, formatPackage])

/-- C9: the renderer is a pure, deterministic function of the Ty tree:
two evaluations on the same tree agree, and it is total (returns an
actual string, hitting no fault) on every Ty the parser produces. -/
theorem c9_render_pure_deterministic :
    (∀ (t : Ty) (s1 s2 : Option String),
      Ty.String t = s1 → Ty.String t = s2 → s1 = s2) ∧
    (∀ (node : AstNode) (m : List String) (p : String) (t : Ty),
      ParseType node m p = some t → (Ty.String t).isSome = true) := by
  constructor
  · intro t s1 s2 h1 h2
    rw [← h1, ← h2]
  · intro node m p t h
    exact parse_string_isSome node m p t h

/-- Witness for C9: two renders of the identifier int agree, and the
parse of star int renders to an actual string. -/
theorem c9_witness :
    Ty.String (Ty.mk none "" "int" TypeKindIdent [] [] none none 0) =
      Ty.String (Ty.mk none "" "int" TypeKindIdent [] [] none none 0) ∧
    (Ty.String (Ty.mk (some (Ty.mk none "" "int" TypeKindIdent [] []
      none none 0)) "" "" TypeKindStar [] [] none none 0)).isSome = true :=
  ⟨c9_render_pure_deterministic.1
      (Ty.mk none "" "int" TypeKindIdent [] [] none none 0) _ _ rfl rfl,
    c9_render_pure_deterministic.2 (AstNode.star (AstNode.ident "int"))
      [] "out" _
      (by rw [ParseType]
          simp [ParseType, identName, formatPackage])⟩

/-- C10: parseTypesFromFile collects exactly the names of the exported
type declarations the file contains, so an unexported locally-declared
type name is never in the set, and a bare identifier naming it parses
with an empty Package. -/
theorem c10_exported_types_only (f : List FileNode) (nm : String)
    (d : String) :
    (nm ∈ parseTypesFromFile f ↔
      FileNode.typeSpec nm ∈ f ∧ isExported nm = true) ∧
    (isExported nm = false →
      nm ∉ parseTypesFromFile f ∧
      ParseType (AstNode.ident nm) (parseTypesFromFile f) d =
        some (Ty.mk none "" nm TypeKindIdent [] [] none none 0)) := by
  have hiff : nm ∈ parseTypesFromFile f ↔
      FileNode.typeSpec nm ∈ f ∧ isExported nm = true := by
    rw [parseTypesFromFile, List.mem_filterMap]
    constructor
    · rintro ⟨a, ha, hg⟩
      cases a with
      | typeSpec nm0 =>
        by_cases he : isExported nm0 = true
        · simp only [he, if_true] at hg
          injection hg with hg
          subst hg
          exact ⟨ha, he⟩
        · simp only [he, if_false, reduceCtorEq] at hg
      | other => exact Option.noConfusion hg
    · rintro ⟨hmem, hexp⟩
      exact ⟨FileNode.typeSpec nm, hmem, by simp only [hexp, if_true]⟩
  refine ⟨hiff, fun hexp => ?_⟩
  have hnot : nm ∉ parseTypesFromFile f := fun hmem => by
    have hh := (hiff.mp hmem).2
    rw [hexp] at hh
    exact Bool.noConfusion hh
  refine ⟨hnot, ?_⟩
  rw [ParseType]
  simp [identName, formatPackage, hnot]

/-- Witness for C10: in a file declaring exported Foo and unexported
bar, the name bar is not collected and the identifier bar parses with an
empty Package. -/
theorem c10_witness :
    "bar" ∉ parseTypesFromFile
      [FileNode.typeSpec "Foo", FileNode.typeSpec "bar", FileNode.other] ∧
    ParseType (AstNode.ident "bar")
        (parseTypesFromFile
          [FileNode.typeSpec "Foo", FileNode.typeSpec "bar", FileNode.other])
        "out" =
      some (Ty.mk none "" "bar" TypeKindIdent [] [] none none 0) :=
  (c10_exported_types_only
    [FileNode.typeSpec "Foo", FileNode.typeSpec "bar", FileNode.other]
    "bar" "out").2 (by decide)

end Generator
